import Mathlib

/-!
# Verification of `src/python/transcribe.py` (VOD-pipeline)

A shallow embedding of the transcription CLI tool.  The external
faster-whisper engine is a black box: a run of the engine is modelled by
the data it hands back (a list of segments plus a metadata record), or by
the exception it raises.  Python floats are modelled as exact rationals
(`ℚ`); Python's `int(...)` truncation is modelled by `pyInt`.  The two
process output streams are modelled as an ordered trace of written lines.
-/

/-- A segment as produced by the engine's recognizer: `segment.start`,
`segment.end`, `segment.text` are the only attributes the script reads. -/
structure EngineSegment where
  start : ℚ
  «end» : ℚ
  text : String
deriving DecidableEq

/-- The metadata record `info` returned by `model.transcribe` alongside the
segment generator: the script reads `info.language` and `info.duration`. -/
structure EngineInfo where
  language : String
  duration : ℚ
deriving DecidableEq

/-- One entry of `segments_list`: the dict
`{"id": i, "start": segment.start, "end": segment.end, "text": segment.text.strip()}`
built in the loop body (transcribe.py lines 66-73). -/
structure OutSegment where
  id : ℕ
  start : ℚ
  «end» : ℚ
  text : String
deriving DecidableEq

/-- The dict `result` built at transcribe.py lines 83-88. -/
structure TranscriptionResult where
  text : String
  language : String
  duration : ℚ
  segments : List OutSegment
deriving DecidableEq

/-- The dict `{"percent": percent, "status": status}` passed to
`emit_progress` (transcribe.py lines 23-27). -/
structure ProgressEvent where
  percent : ℤ
  status : String
deriving DecidableEq

/-- Python's `str.isspace` character class, restricted to the ASCII
whitespace characters that `str.strip()` removes. -/
def pyIsSpace (c : Char) : Bool :=
  c = ' ' || c = '\t' || c = '\n' || c = '\x0d' || c = '\x0b' || c = '\x0c'

/-- Python's `str.strip()` builtin: drop leading and trailing whitespace. -/
def pyStrip (s : String) : String :=
  ⟨((s.data.dropWhile pyIsSpace).reverse.dropWhile pyIsSpace).reverse⟩

/-- Python's `int(q)` on a float: truncation toward zero. -/
def pyInt (q : ℚ) : ℤ :=
  if 0 ≤ q then ⌊q⌋ else ⌈q⌉

/-- The per-segment percentage `10 + int((i / total_segments) * 80)`
computed at transcribe.py line 78 (float arithmetic modelled exactly in ℚ). -/
def segmentPercent (i total : ℕ) : ℤ :=
  10 + pyInt (((i : ℚ) / (total : ℚ)) * 80)

/-- The f-string `f"Processing segment {i + 1}/{total_segments}..."`
at transcribe.py line 79. -/
def segmentStatus (i total : ℕ) : String :=
  "Processing segment " ++ toString (i + 1) ++ "/" ++ toString total ++ "..."

/-- The `for i, segment in enumerate(segments)` loop (transcribe.py lines
65-79), with `i` the enumeration counter and `total` the already-computed
`total_segments`.  Returns the contributions to `segments_list`,
`full_text_parts` and the emitted progress events, in iteration order.
The `if total_segments > 0` guard of line 77 is kept inside the body. -/
def transcribeLoop (total : ℕ) : ℕ → List EngineSegment → List OutSegment × List String × List ProgressEvent
  | _, [] => ([], [], [])
  | i, segment :: rest =>
    let tl := transcribeLoop total (i + 1) rest
    ({ id := i, start := segment.start, «end» := segment.«end», text := pyStrip segment.text } :: tl.1,
      pyStrip segment.text :: tl.2.1,
      (if 0 < total then [{ percent := segmentPercent i total, status := segmentStatus i total }] else []) ++ tl.2.2)

/-- The body of `transcribe` (transcribe.py lines 30-92) after the engine
calls have succeeded: the engine's lazily-produced segments are already
materialized as `segs` (line 61 `segments = list(segments)`) and the
metadata record is `info`.  Returns the `result` dict together with the
ordered list of progress events emitted during the run. -/
def transcribe (segs : List EngineSegment) (info : EngineInfo) : TranscriptionResult × List ProgressEvent :=
  let total := segs.length
  let lp := transcribeLoop total 0 segs
  let result : TranscriptionResult :=
    { text := String.intercalate " " lp.2.1
      language := info.language
      duration := info.duration
      segments := lp.1 }
  (result,
    { percent := 0, status := "Loading model..." } ::
    { percent := 10, status := "Transcribing..." } ::
    lp.2.2 ++ [{ percent := 90, status := "Finalizing..." }, { percent := 100, status := "Complete" }])

/-- The per-segment progress events of a run: the trace of
`transcribe` without the two leading and the two trailing milestones. -/
def perSegmentEvents (segs : List EngineSegment) (info : EngineInfo) : List ProgressEvent :=
  (((transcribe segs info).2).drop 2).take segs.length

/-- The Python exception classes that `main` catches around the
`transcribe(...)` call (transcribe.py lines 135-140). -/
inductive PyExcKind where
  | runtimeError
  | valueError
deriving DecidableEq

/-- A run of the external engine, as observed by `transcribe`:
either `WhisperModel(...)` raises (line 45), or `model.transcribe(...)` /
the materialization of its lazy generator raises (lines 50-61), or the
engine yields a list of segments and a metadata record. -/
inductive EngineBehavior where
  | loadFail (k : PyExcKind) (msg : String)
  | recognizeFail (k : PyExcKind) (msg : String)
  | yields (segs : List EngineSegment) (info : EngineInfo)

/-- A full run of `transcribe` (transcribe.py lines 30-92) against an
engine behaving as `eng`: the returned `result` dict or the escaping
exception, together with the progress events emitted before returning or
before the exception escaped. -/
def transcribeRun (eng : EngineBehavior) :
    Except (PyExcKind × String) TranscriptionResult × List ProgressEvent :=
  match eng with
  | .loadFail k m => (.error (k, m), [{ percent := 0, status := "Loading model..." }])
  | .recognizeFail k m =>
      (.error (k, m),
        [{ percent := 0, status := "Loading model..." }, { percent := 10, status := "Transcribing..." }])
  | .yields segs info =>
      let rev := transcribe segs info
      (.ok rev.1, rev.2)

/-- One line written by the process: `out` models a line printed to the
primary stream (stdout), `errLine` a line printed to the side stream
(stderr). -/
inductive Ev where
  | out (s : String)
  | errLine (s : String)
deriving DecidableEq

/-- The JSON string escapes produced by `json.dumps` for the characters
that can occur in this program's progress statuses. -/
def jsonEscapeChar (c : Char) : String :=
  if c = '"' then "\\\"" else
  if c = '\\' then "\\\\" else
  if c = '\n' then "\\n" else
  if c = '\t' then "\\t" else
  if c = '\x0d' then "\\r" else
  String.singleton c

/-- Model of `json.dumps` on a Python string (the escapes this program can need). -/
def jsonEscape (s : String) : String :=
  String.join (s.data.map jsonEscapeChar)

/-- The stderr line written by `emit_progress` (transcribe.py lines 23-27):
`f"PROGRESS:{json.dumps(progress)}"` with
`progress = {"percent": percent, "status": status}`. -/
def progressLine (e : ProgressEvent) : String :=
  "PROGRESS:" ++ "\x7b\"percent\": " ++ toString e.percent ++ ", \"status\": \"" ++ jsonEscape e.status ++ "\"\x7d"

/-- The stderr message `main` prints when `transcribe` raises
(transcribe.py lines 135-140). -/
def errorMessage : PyExcKind → String → String
  | .runtimeError, m => "ERROR: Transcription failed (runtime error): " ++ m
  | .valueError, m => "ERROR: Transcription failed (invalid parameter): " ++ m

/-- Exit code and ordered output trace of one process run. -/
structure MainOut where
  exitCode : ℕ
  trace : List Ev
deriving DecidableEq

/-- The lines of the primary (stdout) stream of a trace. -/
def stdoutOf (t : List Ev) : List String :=
  t.filterMap fun e => match e with | .out s => some s | .errLine _ => none

/-- The lines of the side (stderr) stream of a trace. -/
def stderrOf (t : List Ev) : List String :=
  t.filterMap fun e => match e with | .out _ => none | .errLine s => some s

/-- The function `main` (transcribe.py lines 95-149) after argument parsing: `audio` is
`args.audio`, `audioExists` models `Path(args.audio).exists()`, `eng` the
engine's behavior, and `dumps` models `json.dumps` on the result dict
(returning the serialized line, or the message of the `TypeError` /
`ValueError` it raises).  Returns the process exit code and the ordered
trace of lines written to the two streams. -/
def mainRun (audio : String) (audioExists : Bool) (eng : EngineBehavior)
    (dumps : TranscriptionResult → Except String String) : MainOut :=
  if audioExists then
    match transcribeRun eng with
    | (.error (k, m), evs) =>
        { exitCode := 1,
          trace := evs.map (fun e => Ev.errLine (progressLine e)) ++ [Ev.errLine (errorMessage k m)] }
    | (.ok r, evs) =>
        match dumps r with
        | .ok s =>
            { exitCode := 0,
              trace := evs.map (fun e => Ev.errLine (progressLine e)) ++ [Ev.out s] }
        | .error m =>
            { exitCode := 1,
              trace := evs.map (fun e => Ev.errLine (progressLine e)) ++
                [Ev.errLine ("ERROR: Transcription failed (serialization error): " ++ m)] }
  else
    { exitCode := 1, trace := [Ev.errLine ("ERROR: Audio file not found: " ++ audio)] }

/-- A JSON value (the fragment of JSON that `json.dumps` produces for this
program's result dict). -/
inductive Json where
  | str (s : String)
  | int (n : ℤ)
  | num (q : ℚ)
  | arr (xs : List Json)
  | obj (fields : List (String × Json))

/-- The JSON value of one entry of the result's `segments` array, mirroring
the dict built at transcribe.py lines 66-73. -/
def outSegToJson (s : OutSegment) : Json :=
  .obj [("id", .int s.id), ("start", .num s.start), ("end", .num s.«end»), ("text", .str s.text)]

/-- The JSON value of the result dict (transcribe.py lines 83-88). -/
def resultToJson (r : TranscriptionResult) : Json :=
  .obj [("text", .str r.text), ("language", .str r.language), ("duration", .num r.duration),
    ("segments", .arr (r.segments.map outSegToJson))]

/-- A JSON number (the schema's `number` covers both ints and floats). -/
def Json.isNumber : Json → Bool
  | .int _ => true
  | .num _ => true
  | _ => false

/-- The documented schema of one element of `segments`: an object with
keys `id` (integer), `start` (number), `end` (number), `text` (string). -/
def matchesSegmentSchema : Json → Bool
  | .obj [("id", .int _), ("start", a), ("end", b), ("text", .str _)] => a.isNumber && b.isNumber
  | _ => false

/-- The documented schema of the result document: a JSON object with keys
`text` (string), `language` (string), `duration` (number), `segments`
(array of segment objects). -/
def matchesResultSchema : Json → Bool
  | .obj [("text", .str _), ("language", .str _), ("duration", d), ("segments", .arr xs)] =>
      d.isNumber && xs.all matchesSegmentSchema
  | _ => false

/-- A run of `main` past the file-existence check hits an error: either
`transcribe` raises one of the two caught exception classes, or
`json.dumps` raises on the result. -/
def runFails (eng : EngineBehavior) (dumps : TranscriptionResult → Except String String) : Prop :=
  match eng with
  | .loadFail _ _ => True
  | .recognizeFail _ _ => True
  | .yields segs info => ∃ m, dumps (transcribe segs info).1 = .error m

/-- A sample engine output used to instantiate universally quantified
results on a concrete run. -/
def wSegs : List EngineSegment :=
  [{ start := 0, «end» := 1, text := "  hello " }, { start := 1, «end» := 2, text := "world  " }]

/-- A sample engine metadata record. -/
def wInfo : EngineInfo := { language := "en", duration := 3 }

/-- A sample single-segment engine output whose segment has equal start and
end times. -/
def w5Segs : List EngineSegment := [{ start := 0, «end» := 0, text := " a " }]

/-! ## Characterization lemmas for the loop and the event trace -/

theorem transcribeLoop_fst_length (total : ℕ) :
    ∀ (segs : List EngineSegment) (i : ℕ), (transcribeLoop total i segs).1.length = segs.length
  | [], _ => rfl
  | _ :: rest, i => by
    simp [transcribeLoop, transcribeLoop_fst_length total rest (i + 1)]

theorem transcribeLoop_fst_getElem (total : ℕ) :
    ∀ (segs : List EngineSegment) (i j : ℕ),
      ((transcribeLoop total i segs).1)[j]? =
        (segs[j]?).map fun s =>
          { id := i + j, start := s.start, «end» := s.«end», text := pyStrip s.text }
  | [], _, _ => by simp [transcribeLoop]
  | seg :: rest, i, 0 => by simp [transcribeLoop]
  | seg :: rest, i, j + 1 => by
    have ih := transcribeLoop_fst_getElem total rest (i + 1) j
    have hj : i + (j + 1) = i + 1 + j := by omega
    simp [transcribeLoop, ih, hj]

theorem transcribeLoop_parts (total : ℕ) :
    ∀ (segs : List EngineSegment) (i : ℕ),
      (transcribeLoop total i segs).2.1 = segs.map fun s => pyStrip s.text
  | [], _ => rfl
  | _ :: rest, i => by
    simp [transcribeLoop, transcribeLoop_parts total rest (i + 1)]

theorem transcribeLoop_events (total : ℕ) (h : 0 < total) :
    ∀ (segs : List EngineSegment) (i : ℕ),
      (transcribeLoop total i segs).2.2 =
        (List.range segs.length).map fun j =>
          { percent := segmentPercent (i + j) total, status := segmentStatus (i + j) total }
  | [], _ => rfl
  | seg :: rest, i => by
    have ih := transcribeLoop_events total h rest (i + 1)
    simp only [transcribeLoop, if_pos h, ih, List.length_cons, List.range_succ_eq_map,
      List.map_cons, List.map_map, List.singleton_append, List.cons.injEq]
    refine ⟨by simp, ?_⟩
    refine List.map_congr_left fun j _ => ?_
    have hj : i + 1 + j = i + (j + 1) := by omega
    simp [Function.comp, Nat.succ_eq_add_one, hj]

theorem transcribe_loopEvents (segs : List EngineSegment) :
    (transcribeLoop segs.length 0 segs).2.2 =
      (List.range segs.length).map fun j =>
        { percent := segmentPercent j segs.length, status := segmentStatus j segs.length } := by
  cases segs with
  | nil => rfl
  | cons a l =>
    rw [transcribeLoop_events (a :: l).length (by simp) (a :: l) 0]
    exact List.map_congr_left fun j _ => by simp

theorem transcribe_events_eq (segs : List EngineSegment) (info : EngineInfo) :
    (transcribe segs info).2 =
      { percent := 0, status := "Loading model..." } ::
      { percent := 10, status := "Transcribing..." } ::
      ((List.range segs.length).map fun j =>
        { percent := segmentPercent j segs.length, status := segmentStatus j segs.length }) ++
      [{ percent := 90, status := "Finalizing..." }, { percent := 100, status := "Complete" }] := by
  simp only [transcribe, transcribe_loopEvents]

theorem perSegmentEvents_eq (segs : List EngineSegment) (info : EngineInfo) :
    perSegmentEvents segs info =
      (List.range segs.length).map fun j =>
        { percent := segmentPercent j segs.length, status := segmentStatus j segs.length } := by
  unfold perSegmentEvents
  rw [transcribe_events_eq]
  show (((List.range segs.length).map fun j =>
      ({ percent := segmentPercent j segs.length, status := segmentStatus j segs.length } : ProgressEvent)) ++
    [({ percent := 90, status := "Finalizing..." } : ProgressEvent),
      ({ percent := 100, status := "Complete" } : ProgressEvent)]).take segs.length = _
  exact List.take_left' (by simp)

theorem transcribe_text (segs : List EngineSegment) (info : EngineInfo) :
    (transcribe segs info).1.text = String.intercalate " " (segs.map fun s => pyStrip s.text) := by
  simp only [transcribe, transcribeLoop_parts]

theorem transcribe_segments_length (segs : List EngineSegment) (info : EngineInfo) :
    (transcribe segs info).1.segments.length = segs.length :=
  transcribeLoop_fst_length segs.length segs 0

/-! ## Arithmetic facts about the per-segment percentage -/

theorem segPercentArg_nonneg (i total : ℕ) : (0 : ℚ) ≤ ((i : ℚ) / (total : ℚ)) * 80 :=
  mul_nonneg (div_nonneg (Nat.cast_nonneg i) (Nat.cast_nonneg total)) (by norm_num)

theorem segmentPercent_eq_floor (i total : ℕ) :
    segmentPercent i total = 10 + ⌊((i : ℚ) / (total : ℚ)) * 80⌋ := by
  unfold segmentPercent pyInt
  rw [if_pos (segPercentArg_nonneg i total)]

theorem segmentPercent_lb (i total : ℕ) : 10 ≤ segmentPercent i total := by
  rw [segmentPercent_eq_floor]
  have h := Int.floor_nonneg.mpr (segPercentArg_nonneg i total)
  omega

theorem segmentPercent_ub (i total : ℕ) (h : i < total) : segmentPercent i total ≤ 89 := by
  rw [segmentPercent_eq_floor]
  have htot : (0 : ℚ) < (total : ℚ) := by
    exact_mod_cast Nat.lt_of_le_of_lt (Nat.zero_le i) h
  have hdiv : (i : ℚ) / (total : ℚ) < 1 := (div_lt_one htot).mpr (by exact_mod_cast h)
  have harg : ((i : ℚ) / (total : ℚ)) * 80 < 80 := by
    calc ((i : ℚ) / (total : ℚ)) * 80 < 1 * 80 := by
          exact mul_lt_mul_of_pos_right hdiv (by norm_num)
      _ = 80 := one_mul 80
  have hfl : ⌊((i : ℚ) / (total : ℚ)) * 80⌋ < 80 := Int.floor_lt.mpr (by exact_mod_cast harg)
  omega

theorem segmentPercent_mono (total : ℕ) {i j : ℕ} (hij : i ≤ j) :
    segmentPercent i total ≤ segmentPercent j total := by
  rw [segmentPercent_eq_floor, segmentPercent_eq_floor]
  have harg : ((i : ℚ) / (total : ℚ)) * 80 ≤ ((j : ℚ) / (total : ℚ)) * 80 := by
    rcases Nat.eq_zero_or_pos total with h0 | hpos
    · simp [h0]
    · have htot : (0 : ℚ) < (total : ℚ) := by exact_mod_cast hpos
      have hij' : (i : ℚ) ≤ (j : ℚ) := by exact_mod_cast hij
      exact mul_le_mul_of_nonneg_right ((div_le_div_iff_of_pos_right htot).mpr hij') (by norm_num)
  have := Int.floor_le_floor harg
  omega

theorem perSegmentPercents_pairwise (N : ℕ) :
    List.Pairwise (fun p q => p ≤ q) ((List.range N).map fun j => segmentPercent j N) := by
  rw [List.pairwise_map]
  exact (List.pairwise_lt_range N).imp fun hlt => segmentPercent_mono N (Nat.le_of_lt hlt)

theorem perSegmentPercents_bounds {N : ℕ} {x : ℤ}
    (hx : x ∈ (List.range N).map fun j => segmentPercent j N) : 10 ≤ x ∧ x ≤ 89 := by
  obtain ⟨j, hj, rfl⟩ := List.mem_map.mp hx
  exact ⟨segmentPercent_lb j N, segmentPercent_ub j N (List.mem_range.mp hj)⟩

/-! ## Stream helpers -/

theorem stdoutOf_map_errLine (f : ProgressEvent → String) (l : List ProgressEvent) :
    stdoutOf (l.map fun e => Ev.errLine (f e)) = [] := by
  induction l with
  | nil => rfl
  | cons a t ih => simp [stdoutOf, List.filterMap_cons] at ih ⊢

theorem stdoutOf_append (a b : List Ev) : stdoutOf (a ++ b) = stdoutOf a ++ stdoutOf b := by
  simp [stdoutOf, List.filterMap_append]

/-! ## Claims -/

/-- C1: in a run of `transcribe` whose engine yields `N > 0` segments, the
per-segment progress event emitted for the zero-based segment index `i`
has percent `10 + ⌊(i / N) * 80⌋` and a status string naming the 1-based
position `i + 1` and the total count `N`. -/
theorem c1_per_segment_progress (segs : List EngineSegment) (info : EngineInfo)
    (i : ℕ) (hi : i < segs.length) :
    (perSegmentEvents segs info)[i]? =
      some { percent := 10 + ⌊((i : ℚ) / (segs.length : ℚ)) * 80⌋,
             status := "Processing segment " ++ toString (i + 1) ++ "/" ++
               toString segs.length ++ "..." } := by
  rw [perSegmentEvents_eq, List.getElem?_map, List.getElem?_range hi]
  simp [segmentPercent_eq_floor, segmentStatus]

theorem c1_witness :
    (perSegmentEvents wSegs wInfo)[0]? =
      some { percent := 10 + ⌊(((0 : ℕ) : ℚ) / ((wSegs.length : ℕ) : ℚ)) * 80⌋,
             status := "Processing segment " ++ toString (0 + 1) ++ "/" ++
               toString wSegs.length ++ "..." } :=
  c1_per_segment_progress wSegs wInfo 0 (by decide)

/-- C2: a run of `transcribe` whose engine yields `N` segments emits
exactly `N` per-segment progress events, surrounded by exactly the four
fixed milestone events with percents 0, 10, 90, 100, in that order around
the loop; in particular `N = 0` leaves the per-segment part empty. -/
theorem c2_event_counts (segs : List EngineSegment) (info : EngineInfo) :
    (transcribe segs info).2 =
      { percent := 0, status := "Loading model..." } ::
      { percent := 10, status := "Transcribing..." } ::
      perSegmentEvents segs info ++
      [{ percent := 90, status := "Finalizing..." }, { percent := 100, status := "Complete" }] ∧
    (perSegmentEvents segs info).length = segs.length := by
  refine ⟨?_, ?_⟩
  · rw [transcribe_events_eq, perSegmentEvents_eq]
  · rw [perSegmentEvents_eq]; simp

/-- C3: in a run of `transcribe` with `N > 0` segments, the per-segment
progress percentages are non-decreasing in the segment index, and each
lies within the closed interval `[10, 90]`. -/
theorem c3_monotone_bounded (segs : List EngineSegment) (info : EngineInfo)
    (_h : 0 < segs.length) :
    List.Pairwise (fun p q => p ≤ q) ((perSegmentEvents segs info).map fun e => e.percent) ∧
    ∀ e ∈ perSegmentEvents segs info, 10 ≤ e.percent ∧ e.percent ≤ 90 := by
  refine ⟨?_, ?_⟩
  · rw [perSegmentEvents_eq, List.map_map]
    exact perSegmentPercents_pairwise segs.length
  · intro e he
    rw [perSegmentEvents_eq] at he
    obtain ⟨j, hj, rfl⟩ := List.mem_map.mp he
    have hb := perSegmentPercents_bounds
      (show segmentPercent j segs.length ∈
          (List.range segs.length).map fun j => segmentPercent j segs.length from
        List.mem_map.mpr ⟨j, hj, rfl⟩)
    show 10 ≤ segmentPercent j segs.length ∧ segmentPercent j segs.length ≤ 90
    exact ⟨hb.1, le_trans hb.2 (by norm_num)⟩

theorem c3_witness :
    List.Pairwise (fun p q => p ≤ q) ((perSegmentEvents wSegs wInfo).map fun e => e.percent) ∧
    ∀ e ∈ perSegmentEvents wSegs wInfo, 10 ≤ e.percent ∧ e.percent ≤ 90 :=
  c3_monotone_bounded wSegs wInfo (by decide)

/-- C4: the result's `text` equals the segments' texts, each stripped of
leading and trailing whitespace, joined by single spaces in segment
order; in particular for engine texts `"  hello "` and `"world  "` the
result text is `"hello world"`. -/
theorem c4_text_joined (segs : List EngineSegment) (info : EngineInfo) :
    (transcribe segs info).1.text = String.intercalate " " (segs.map fun s => pyStrip s.text) ∧
    (transcribe [{ start := 0, «end» := 1, text := "  hello " },
      { start := 1, «end» := 2, text := "world  " }] info).1.text = "hello world" := by
  refine ⟨transcribe_text segs info, ?_⟩
  rw [transcribe_text]
  decide

/-- C5: in a run of `transcribe` yielding `N` segments, the result
satisfies `segments[i].id = i` for every `i < N`, and, assuming every
engine segment has `end ≥ start`, every result segment has
`start ≤ end`. -/
theorem c5_ids_and_order (segs : List EngineSegment) (info : EngineInfo)
    (hse : ∀ s ∈ segs, s.start ≤ s.«end») (i : ℕ)
    (hi : i < (transcribe segs info).1.segments.length) :
    ((transcribe segs info).1.segments.get ⟨i, hi⟩).id = i ∧
    ((transcribe segs info).1.segments.get ⟨i, hi⟩).start ≤
      ((transcribe segs info).1.segments.get ⟨i, hi⟩).«end» := by
  have hi' : i < segs.length := by
    rw [← transcribe_segments_length segs info]; exact hi
  have key : (transcribe segs info).1.segments[i]? =
      some { id := 0 + i, start := (segs.get ⟨i, hi'⟩).start,
             «end» := (segs.get ⟨i, hi'⟩).«end», text := pyStrip (segs.get ⟨i, hi'⟩).text } := by
    have h := transcribeLoop_fst_getElem segs.length segs 0 i
    rw [List.getElem?_eq_getElem hi'] at h
    simpa [List.get_eq_getElem] using h
  have hsome : (transcribe segs info).1.segments[i]? =
      some ((transcribe segs info).1.segments.get ⟨i, hi⟩) := by
    rw [List.get_eq_getElem]
    exact List.getElem?_eq_getElem hi
  have heq := Option.some.inj (hsome.symm.trans key)
  rw [heq]
  exact ⟨Nat.zero_add i, hse _ (List.get_mem segs i hi')⟩

theorem c5_witness :
    ((transcribe w5Segs wInfo).1.segments.get ⟨0, by decide⟩).id = 0 ∧
    ((transcribe w5Segs wInfo).1.segments.get ⟨0, by decide⟩).start ≤
      ((transcribe w5Segs wInfo).1.segments.get ⟨0, by decide⟩).«end» :=
  c5_ids_and_order w5Segs wInfo (by simp [w5Segs]) 0 (by decide)

/-- C9: `transcribe` is a deterministic function of the engine's output:
two runs in which the engine returns the same segment sequence and the
same metadata produce equal `text`, `language` and `duration` fields. -/
theorem c9_deterministic (segs₁ segs₂ : List EngineSegment) (info₁ info₂ : EngineInfo)
    (hs : segs₁ = segs₂) (hinfo : info₁ = info₂) :
    (transcribe segs₁ info₁).1.text = (transcribe segs₂ info₂).1.text ∧
    (transcribe segs₁ info₁).1.language = (transcribe segs₂ info₂).1.language ∧
    (transcribe segs₁ info₁).1.duration = (transcribe segs₂ info₂).1.duration := by
  subst hs; subst hinfo
  exact ⟨rfl, rfl, rfl⟩

theorem c9_witness :
    (transcribe wSegs wInfo).1.text = (transcribe wSegs wInfo).1.text ∧
    (transcribe wSegs wInfo).1.language = (transcribe wSegs wInfo).1.language ∧
    (transcribe wSegs wInfo).1.duration = (transcribe wSegs wInfo).1.duration :=
  c9_deterministic wSegs wSegs wInfo wInfo rfl rfl

theorem string_split_err (a b m : String) (h : "ERROR: " ++ a = b) :
    b ++ m = "ERROR: " ++ (a ++ m) := by
  rw [← h, String.append_assoc]

/-- C6: when the `--audio` path does not exist, the process exits with
code 1, writes nothing to the primary stream, writes an error line
containing the path to the error stream, and never invokes the
Orchestrator: the outcome is independent of the engine and of the
serializer, and the trace holds no progress line. -/
theorem c6_missing_audio (audio : String) (eng : EngineBehavior)
    (dumps : TranscriptionResult → Except String String) :
    mainRun audio false eng dumps =
      { exitCode := 1, trace := [Ev.errLine ("ERROR: Audio file not found: " ++ audio)] } ∧
    stdoutOf (mainRun audio false eng dumps).trace = [] ∧
    (∃ pre suf, stderrOf (mainRun audio false eng dumps).trace = [pre ++ audio ++ suf]) ∧
    ∀ (eng' : EngineBehavior) (dumps' : TranscriptionResult → Except String String),
      mainRun audio false eng dumps = mainRun audio false eng' dumps' := by
  refine ⟨rfl, rfl, ⟨"ERROR: Audio file not found: ", "", ?_⟩, fun _ _ => rfl⟩
  show stderrOf [Ev.errLine ("ERROR: Audio file not found: " ++ audio)] =
    ["ERROR: Audio file not found: " ++ audio ++ ""]
  simp [stderrOf]

/-- C7: every caught failure during transcription (engine load failure,
recognition runtime failure, parameter-validation failure) and every
serialization failure makes the process write an `ERROR: `-prefixed line
to the error stream and exit with code 1, and the primary stream stays
empty. -/
theorem c7_errors_to_stderr (audio : String) (eng : EngineBehavior)
    (dumps : TranscriptionResult → Except String String) (hfail : runFails eng dumps) :
    (mainRun audio true eng dumps).exitCode = 1 ∧
    stdoutOf (mainRun audio true eng dumps).trace = [] ∧
    ∃ rest, Ev.errLine ("ERROR: " ++ rest) ∈ (mainRun audio true eng dumps).trace := by
  have hmsg : ∀ (k : PyExcKind) (m : String), ∃ rest, errorMessage k m = "ERROR: " ++ rest := by
    intro k m
    cases k with
    | runtimeError =>
      exact ⟨"Transcription failed (runtime error): " ++ m,
        string_split_err "Transcription failed (runtime error): " _ m (by decide)⟩
    | valueError =>
      exact ⟨"Transcription failed (invalid parameter): " ++ m,
        string_split_err "Transcription failed (invalid parameter): " _ m (by decide)⟩
  cases eng with
  | loadFail k m =>
    obtain ⟨rest, hrest⟩ := hmsg k m
    refine ⟨rfl, rfl, rest, ?_⟩
    show Ev.errLine ("ERROR: " ++ rest) ∈
      [Ev.errLine (progressLine { percent := 0, status := "Loading model..." }),
        Ev.errLine (errorMessage k m)]
    rw [hrest]
    exact List.mem_cons_of_mem _ (List.mem_cons_self _ _)
  | recognizeFail k m =>
    obtain ⟨rest, hrest⟩ := hmsg k m
    refine ⟨rfl, rfl, rest, ?_⟩
    show Ev.errLine ("ERROR: " ++ rest) ∈
      [Ev.errLine (progressLine { percent := 0, status := "Loading model..." }),
        Ev.errLine (progressLine { percent := 10, status := "Transcribing..." }),
        Ev.errLine (errorMessage k m)]
    rw [hrest]
    exact List.mem_cons_of_mem _ (List.mem_cons_of_mem _ (List.mem_cons_self _ _))
  | yields segs info =>
    have hfail' : ∃ m, dumps (transcribe segs info).1 = .error m := hfail
    obtain ⟨m, hm⟩ := hfail'
    have ht : mainRun audio true (.yields segs info) dumps =
        { exitCode := 1,
          trace := ((transcribe segs info).2).map (fun e => Ev.errLine (progressLine e)) ++
            [Ev.errLine ("ERROR: Transcription failed (serialization error): " ++ m)] } := by
      simp [mainRun, transcribeRun, hm]
    refine ⟨by rw [ht], ?_, ?_⟩
    · rw [ht]
      simp [stdoutOf_append, stdoutOf_map_errLine, stdoutOf]
    · refine ⟨"Transcription failed (serialization error): " ++ m, ?_⟩
      rw [ht, ← string_split_err "Transcription failed (serialization error): "
        "ERROR: Transcription failed (serialization error): " m (by decide)]
      exact List.mem_append_right _ (List.mem_cons_self _ _)

theorem c7_witness :
    (mainRun "a.wav" true (.loadFail .runtimeError "boom") (fun _ => Except.ok "")).exitCode = 1 ∧
    stdoutOf (mainRun "a.wav" true (.loadFail .runtimeError "boom") (fun _ => Except.ok "")).trace = [] ∧
    ∃ rest, Ev.errLine ("ERROR: " ++ rest) ∈
      (mainRun "a.wav" true (.loadFail .runtimeError "boom") (fun _ => Except.ok "")).trace :=
  c7_errors_to_stderr "a.wav" (.loadFail .runtimeError "boom") (fun _ => Except.ok "") True.intro

/-- C8: a successful invocation exits with code 0, the primary stream
holds exactly the one serialized line, that line is written only after
every progress event of the completed transcription, and the emitted
result document matches the documented JSON schema. -/
theorem c8_success_output (audio : String) (segs : List EngineSegment) (info : EngineInfo)
    (dumps : TranscriptionResult → Except String String) (s : String)
    (hd : dumps (transcribe segs info).1 = .ok s) :
    (mainRun audio true (.yields segs info) dumps).exitCode = 0 ∧
    (mainRun audio true (.yields segs info) dumps).trace =
      ((transcribe segs info).2).map (fun e => Ev.errLine (progressLine e)) ++ [Ev.out s] ∧
    stdoutOf (mainRun audio true (.yields segs info) dumps).trace = [s] ∧
    matchesResultSchema (resultToJson (transcribe segs info).1) = true := by
  have ht : mainRun audio true (.yields segs info) dumps =
      { exitCode := 0,
        trace := ((transcribe segs info).2).map (fun e => Ev.errLine (progressLine e)) ++
          [Ev.out s] } := by
    simp [mainRun, transcribeRun, hd]
  refine ⟨by rw [ht], by rw [ht], ?_, ?_⟩
  · rw [ht]
    simp [stdoutOf_append, stdoutOf_map_errLine, stdoutOf]
  · have hseg : ∀ x : OutSegment, matchesSegmentSchema (outSegToJson x) = true := fun _ => rfl
    simp [matchesResultSchema, resultToJson, Json.isNumber, List.all_eq_true, hseg]

theorem c8_witness :
    (mainRun "a.wav" true (.yields wSegs wInfo) (fun _ => Except.ok "line")).exitCode = 0 ∧
    (mainRun "a.wav" true (.yields wSegs wInfo) (fun _ => Except.ok "line")).trace =
      ((transcribe wSegs wInfo).2).map (fun e => Ev.errLine (progressLine e)) ++ [Ev.out "line"] ∧
    stdoutOf (mainRun "a.wav" true (.yields wSegs wInfo) (fun _ => Except.ok "line")).trace = ["line"] ∧
    matchesResultSchema (resultToJson (transcribe wSegs wInfo).1) = true :=
  c8_success_output "a.wav" wSegs wInfo (fun _ => Except.ok "line") "line" rfl

/-- C10: in every successful run of `transcribe`, the full sequence of
emitted progress percents is globally non-decreasing, begins with 0 and
ends with 100, and every per-segment percent is strictly below the 90
`Finalizing` milestone. -/
theorem c10_trace_monotone (segs : List EngineSegment) (info : EngineInfo) :
    List.Pairwise (fun p q => p ≤ q) (((transcribe segs info).2).map fun e => e.percent) ∧
    ((((transcribe segs info).2).map fun e => e.percent).head? = some 0) ∧
    ((((transcribe segs info).2).map fun e => e.percent).getLast? = some 100) ∧
    ∀ e ∈ perSegmentEvents segs info, e.percent < 90 := by
  have hmap : ((transcribe segs info).2).map (fun e => e.percent) =
      0 :: 10 :: (((List.range segs.length).map fun j => segmentPercent j segs.length) ++ [90, 100]) := by
    rw [transcribe_events_eq]
    simp [List.map_map]
  refine ⟨?_, ?_, ?_, ?_⟩
  · rw [hmap]
    refine List.pairwise_cons.mpr ⟨?_, List.pairwise_cons.mpr ⟨?_, ?_⟩⟩
    · intro x hx
      rcases List.mem_cons.mp hx with rfl | hx'
      · norm_num
      rcases List.mem_append.mp hx' with hm | ht
      · have := perSegmentPercents_bounds hm
        omega
      · simp at ht
        rcases ht with rfl | rfl <;> norm_num
    · intro x hx
      rcases List.mem_append.mp hx with hm | ht
      · have := perSegmentPercents_bounds hm
        omega
      · simp at ht
        rcases ht with rfl | rfl <;> norm_num
    · refine List.pairwise_append.mpr ⟨perSegmentPercents_pairwise segs.length, by decide, ?_⟩
      intro a ha b hb
      have hba := perSegmentPercents_bounds ha
      simp at hb
      rcases hb with rfl | rfl <;> omega
  · rw [hmap]
    rfl
  · rw [hmap]
    have h100 := List.getLast?_append_of_ne_nil
      ((0 : ℤ) :: 10 :: ((List.range segs.length).map fun j => segmentPercent j segs.length))
      (show ([90, 100] : List ℤ) ≠ [] by simp)
    exact h100.trans rfl
  · intro e he
    rw [perSegmentEvents_eq] at he
    obtain ⟨j, hj, rfl⟩ := List.mem_map.mp he
    show segmentPercent j segs.length < 90
    have := segmentPercent_ub j segs.length (List.mem_range.mp hj)
    omega

